import Mathlib

/-!
Verification of the inventory allocation and order lifecycle engine of
`src/logic.py`.  The SQL tables are embedded as Lean lists of records, the
engine's functions as pure state transformers on a `DB` value.  Machine
integers in the store (`free_stock`, quantities) are modelled as `Int`
(SQL integer columns, which the code can drive negative), monetary values
as `ℚ`.  A SQL `fetchone()` is modelled as the first matching row in table
order; an `UPDATE ... WHERE` is a map over all matching rows.
-/

/-- A row of the `parts_stock` table. -/
structure StockRecord where
  part_number : String
  description : String
  free_stock : Int
  price : ℚ
  stock_type : String
  is_active : Bool
deriving DecidableEq

/-- A row of the `cart` table (the `timestamp` column is not tracked;
no claim depends on cart display order). -/
structure CartRow where
  id : Nat
  user_id : String
  part_number : String
  description : String
  qty : Int
  price : ℚ
deriving DecidableEq

/-- A row of the `orders` table. -/
structure OrderRow where
  order_id : Nat
  user_id : String
  total_price : ℚ
  order_status : String
  stock_type : String
deriving DecidableEq

/-- A row of the `order_items` table: `qty` is the allocated quantity,
`available_qty` the stock snapshot read just before deduction. -/
structure OrderItemRow where
  order_id : Nat
  part_number : String
  description : String
  qty : Int
  requested_qty : Int
  available_qty : Int
  price : ℚ
deriving DecidableEq

/-- The persistent store.  `next_order_id` models the serial generator
behind `RETURNING order_id`. -/
structure DB where
  parts_stock : List StockRecord
  cart : List CartRow
  orders : List OrderRow
  order_items : List OrderItemRow
  next_order_id : Nat
deriving DecidableEq

/-- One submitted order line, as handed to `create_order`:
`{part_number, description, qty (requested), price}`. -/
structure OrderInput where
  part_number : String
  description : String
  qty : Int
  price : ℚ
deriving DecidableEq

-- ---------- STOCK READS ----------

/-- The availability read inside `create_order` (logic.py:246-249):
`SELECT free_stock FROM parts_stock WHERE part_number = :pn AND
stock_type = :stype` followed by `fetchone()`.  Note: no `is_active`
filter appears in this query. -/
def selectFreeStock (db : DB) (pn stype : String) : Option Int :=
  ((db.parts_stock.filter (fun r => r.part_number = pn ∧ r.stock_type = stype)).head?).map
    (fun r => r.free_stock)

/-- `get_part_by_number` (logic.py:114-127): direct lookup, filtered on
`is_active = TRUE`. -/
def get_part_by_number (db : DB) (pn stype : String) : Option StockRecord :=
  (db.parts_stock.filter
    (fun r => r.part_number = pn ∧ r.stock_type = stype ∧ r.is_active)).head?

/-- `UPDATE parts_stock SET free_stock = free_stock - :qty WHERE
part_number = :pn AND stock_type = :stype` (logic.py:259-262). -/
def deductStock (db : DB) (pn stype : String) (q : Int) : DB :=
  { db with parts_stock := db.parts_stock.map (fun r =>
      if r.part_number = pn ∧ r.stock_type = stype then
        { r with free_stock := r.free_stock - q }
      else r) }

/-- `UPDATE parts_stock SET free_stock = free_stock + :qty WHERE
part_number = :pn AND stock_type = :stype` (logic.py:423-426). -/
def restoreStock (db : DB) (pn stype : String) (q : Int) : DB :=
  { db with parts_stock := db.parts_stock.map (fun r =>
      if r.part_number = pn ∧ r.stock_type = stype then
        { r with free_stock := r.free_stock + q }
      else r) }

-- ---------- ALLOCATION COMPUTATIONS ----------

/-- `calculate_allocation` inside `process_bulk_enquiry`
(logic.py:354-366); `recordExists` stands for `not pd.isna(row.description)`,
`avail` is `free_stock` with missing values filled by 0. -/
def calculate_allocation (recordExists : Bool) (req avail : Int) : Int × String :=
  if ¬recordExists then (0, "Invalid Part")
  else if avail ≥ req then (req, "Fully Allocated")
  else if avail > 0 then (avail, "Partial Fulfillment")
  else (0, "Out of Stock")

/-- The per-row allocation of `get_user_cart` (logic.py:184-196):
`avail = available_qty or 0` (a NULL from the LEFT JOIN becomes 0), then
the same three-way branch; there is no missing-record branch here. -/
def cart_allocate (req : Int) (availOpt : Option Int) : Int × String :=
  let avail := availOpt.getD 0
  if avail ≥ req then (req, "Fully Allocated")
  else if avail > 0 then (avail, "Partial Fulfillment")
  else (0, "Out of Stock")

/-- Step 3 of `create_order` (logic.py:255): `allocated_qty =
min(requested_qty, current_stock)`. -/
def order_line_alloc (req current : Int) : Int :=
  min req current

-- ---------- CART VIEW ----------

/-- A row of the result of `get_user_cart`. -/
structure CartView where
  id : Nat
  part_number : String
  description : String
  qty : Int
  price : ℚ
  available_qty : Option Int
  allocated_qty : Int
  status : String
  no_record : Bool
deriving DecidableEq

/-- The LEFT JOIN of `get_user_cart` (logic.py:169-179): availability of a
cart part comes from the active record of the hard-coded pool
`'parts_stock'`; at most one active record per (part, pool) is the
intended invariant, so the join is modelled by the first active match. -/
def cart_available (db : DB) (pn : String) : Option Int :=
  ((db.parts_stock.filter (fun r =>
      r.part_number = pn ∧ r.stock_type = "parts_stock" ∧ r.is_active)).head?).map
    (fun r => r.free_stock)

/-- `get_user_cart` (logic.py:165-201).  Every row gets
`no_record = False` ("existed in cart means valid", logic.py:198); rows
are kept in cart-table order (the SQL orders by the untracked timestamp). -/
def get_user_cart (db : DB) (uid : String) : List CartView :=
  (db.cart.filter (fun c => c.user_id = uid)).map (fun c =>
    let availOpt := cart_available db c.part_number
    let res := cart_allocate c.qty availOpt
    { id := c.id, part_number := c.part_number, description := c.description,
      qty := c.qty, price := c.price, available_qty := availOpt,
      allocated_qty := res.1, status := res.2, no_record := false })

-- ---------- ORDER CREATION ----------

/-- `INSERT INTO orders (user_id, total_price, stock_type) VALUES (:uid, 0,
:stype) RETURNING order_id` (logic.py:237-241).  Modelled from the spec:
the schema of the `orders` table is not in the repository; per §4.4 of the
design a fresh order starts in status `"Pending"` (the column default). -/
def insertHeader (db : DB) (uid stype : String) (oid : Nat) : DB :=
  { db with
    orders := db.orders ++ [{ order_id := oid, user_id := uid, total_price := 0,
                              order_status := "Pending", stock_type := stype }],
    next_order_id := oid + 1 }

/-- `INSERT INTO order_items ...` (logic.py:268-283): `qty` is the
allocated quantity, `available_qty` the pre-deduction snapshot. -/
def appendItem (db : DB) (oid : Nat) (item : OrderInput) (allocated current : Int) : DB :=
  { db with order_items := db.order_items ++
      [{ order_id := oid, part_number := item.part_number,
         description := item.description, qty := allocated,
         requested_qty := item.qty, available_qty := current,
         price := item.price }] }

/-- `UPDATE orders SET total_price = :tot WHERE order_id = :oid`
(logic.py:288-291). -/
def setTotal (db : DB) (oid : Nat) (tot : ℚ) : DB :=
  { db with orders := db.orders.map (fun o =>
      if o.order_id = oid then { o with total_price := tot } else o) }

/-- `DELETE FROM cart WHERE user_id = :uid` (logic.py:294). -/
def clearCartOf (uid : String) (db : DB) : DB :=
  { db with cart := db.cart.filter (fun c => ¬c.user_id = uid) }

/-- The per-line loop of `create_order` (logic.py:243-285): read live
stock (`current_stock = row.free_stock if row else 0`), cap the
allocation, deduct only when positive, persist the line, accumulate the
allocated value. -/
def create_order_lines (stype : String) (oid : Nat) :
    List OrderInput → DB → ℚ → DB × ℚ
  | [], db, tot => (db, tot)
  | item :: rest, db, tot =>
    let current := (selectFreeStock db item.part_number stype).getD 0
    let a := order_line_alloc item.qty current
    let db1 := if 0 < a then deductStock db item.part_number stype a else db
    let db2 := appendItem db1 oid item a current
    create_order_lines stype oid rest db2 (tot + (a : ℚ) * item.price)

/-- `create_order` (logic.py:228-298), successful path: header, the line
loop, header total, cart clear; returns the new order id.  (In Python the
call returns `(True, order_id)`; the failure-injected variant
`create_order_fb` below carries the error case.) -/
def create_order (db : DB) (uid : String) (items : List OrderInput) (stype : String) :
    DB × Nat :=
  let oid := db.next_order_id
  let res := create_order_lines stype oid items (insertHeader db uid stype oid) 0
  (clearCartOf uid (setTotal res.1 oid res.2), oid)

-- ---------- ORDER CREATION WITH INJECTED STORAGE FAILURE ----------

/-- One storage call inside the transaction of `create_order`: the
`failAt` oracle makes the call numbered `n` raise, modelling a storage
backend failure at that point. -/
def opCheck (failAt : Option Nat) (n : Nat) : Except String Nat :=
  if failAt = some n then Except.error "storage unavailable" else Except.ok (n + 1)

/-- The line loop of `create_order` with a storage-failure oracle; the
sequence of storage calls per line is: SELECT stock, UPDATE stock (only
when the allocation is positive), INSERT line item. -/
def create_order_fb_lines (failAt : Option Nat) (stype : String) (oid : Nat) :
    List OrderInput → DB → Nat → ℚ → Except String (DB × Nat × ℚ)
  | [], db, n, tot => Except.ok (db, n, tot)
  | item :: rest, db, n, tot =>
    match opCheck failAt n with
    | Except.error e => Except.error e
    | Except.ok n1 =>
      let current := (selectFreeStock db item.part_number stype).getD 0
      let a := order_line_alloc item.qty current
      let step2 : Except String (DB × Nat) :=
        if 0 < a then
          match opCheck failAt n1 with
          | Except.error e => Except.error e
          | Except.ok n2 => Except.ok (deductStock db item.part_number stype a, n2)
        else Except.ok (db, n1)
      match step2 with
      | Except.error e => Except.error e
      | Except.ok (db1, n2) =>
        match opCheck failAt n2 with
        | Except.error e => Except.error e
        | Except.ok n3 =>
          create_order_fb_lines failAt stype oid rest (appendItem db1 oid item a current)
            n3 (tot + (a : ℚ) * item.price)

/-- `create_order` under `with engine.begin(): ... except Exception as e:
return False, str(e)` (logic.py:234-298): every storage call sits inside
one transaction, so an exception anywhere rolls the store back to its
entry state and the caller gets `(False, message)`; success returns
`(True, order_id)`. -/
def create_order_fb (failAt : Option Nat) (db : DB) (uid : String)
    (items : List OrderInput) (stype : String) : DB × Except String Nat :=
  let oid := db.next_order_id
  let body : Except String (DB × Nat × ℚ) :=
    match opCheck failAt 0 with
    | Except.error e => Except.error e
    | Except.ok n1 =>
      create_order_fb_lines failAt stype oid items (insertHeader db uid stype oid) n1 0
  match body with
  | Except.error e => (db, Except.error e)
  | Except.ok (db2, n2, tot) =>
    match opCheck failAt n2 with
    | Except.error e => (db, Except.error e)
    | Except.ok n3 =>
      match opCheck failAt n3 with
      | Except.error e => (db, Except.error e)
      | Except.ok _ => (clearCartOf uid (setTotal db2 oid tot), Except.ok oid)

-- ---------- STOCK RESTORATION AND ORDER LIFECYCLE ----------

/-- The restoration loop of `restore_stock_from_order` (logic.py:420-426):
credit each line's allocated `qty` back, skipping non-positive lines. -/
def restoreLoop (stype : String) : List OrderItemRow → DB → DB
  | [], db => db
  | it :: rest, db =>
    restoreLoop stype rest
      (if 0 < it.qty then restoreStock db it.part_number stype it.qty else db)

/-- `restore_stock_from_order` (logic.py:398-426): fetch the order's
items, fetch the header for its `stock_type`, return unchanged if the
header is gone, else credit every positive allocated quantity back. -/
def restore_stock_from_order (db : DB) (oid : Nat) : DB :=
  let items := db.order_items.filter (fun it => it.order_id = oid)
  match (db.orders.filter (fun o => o.order_id = oid)).head? with
  | none => db
  | some header => restoreLoop header.stock_type items db

/-- `update_order_status` (logic.py:428-451): restore stock only when the
new status is `Rejected` and the current status is not already
`Rejected`, then write the new status. -/
def update_order_status (db : DB) (oid : Nat) (status : String) : DB × Bool × String :=
  let curr := (db.orders.filter (fun o => o.order_id = oid)).head?
  let db1 :=
    match curr with
    | some c =>
      if ¬c.order_status = "Rejected" ∧ status = "Rejected" then
        restore_stock_from_order db oid
      else db
    | none => db
  let db2 := { db1 with orders := db1.orders.map (fun o =>
      if o.order_id = oid then { o with order_status := status } else o) }
  (db2, true, "Updated")

/-- `delete_order` (logic.py:453-464): restore stock unconditionally,
then delete the line items, then the header. -/
def delete_order (db : DB) (oid : Nat) : DB × Bool × String :=
  let db1 := restore_stock_from_order db oid
  let db2 := { db1 with order_items := db1.order_items.filter (fun it => ¬it.order_id = oid) }
  let db3 := { db2 with orders := db2.orders.filter (fun o => ¬o.order_id = oid) }
  (db3, true, "Deleted")

-- ---------- BULK ENQUIRY ----------

/-- Python `str.strip()` whitespace test on a single character. -/
def isSpaceChar (c : Char) : Bool :=
  c = ' ' ∨ c = '\t' ∨ c = '\n' ∨ c = '\r'

/-- Part-number cleaning of `process_bulk_enquiry` (logic.py:329):
`.str.replace("-", "").str.strip()` — drop every hyphen, then trim
surrounding whitespace. -/
def cleanPart (s : String) : String :=
  String.mk
    ((((s.toList.filter (fun c => ¬c = '-')).dropWhile isSpaceChar).reverse.dropWhile
        isSpaceChar).reverse)

/-- A cleaned input row of a bulk submission: `{part_number, qty}`. -/
structure BulkRow where
  part_number : String
  qty : Int
deriving DecidableEq

/-- First occurrence of each key, later duplicates removed (the key set of
`df.groupby('part_number')`; pandas emits the groups sorted by key, an
ordering difference no stated property depends on). -/
def dedupFirstAux (seen : List String) : List String → List String
  | [] => []
  | x :: xs =>
    if x ∈ seen then dedupFirstAux seen xs
    else x :: dedupFirstAux (x :: seen) xs

def dedupFirst (l : List String) : List String :=
  dedupFirstAux [] l

/-- Rounding to two decimal places (`round(x, 2)` applied to the adjusted
price; the claims here do not depend on the tie-breaking mode, so
round-to-nearest stands in for pandas' nearest-even). -/
def roundCents (q : ℚ) : ℚ :=
  (round (q * 100) : ℤ) / 100

/-- One output row of `process_bulk_enquiry` after the left merge with the
stock table and the allocation apply. -/
structure BulkResult where
  part_number : String
  qty : Int
  description : Option String
  price : Option ℚ
  no_record : Bool
  available_qty : Int
  allocated_qty : Int
  status : String
deriving DecidableEq

/-- The left merge of one merged bulk row against the (price-adjusted)
active stock rows plus `calculate_allocation` (logic.py:349-370): no
match yields one `no_record` row with availability filled by 0; each
match yields one allocated row. -/
def bulk_match_rows (stockAdj : List StockRecord) (m : BulkRow) : List BulkResult :=
  match stockAdj.filter (fun p => p.part_number = m.part_number) with
  | [] =>
    [{ part_number := m.part_number, qty := m.qty, description := none,
       price := none, no_record := true, available_qty := 0,
       allocated_qty := (calculate_allocation false m.qty 0).1,
       status := (calculate_allocation false m.qty 0).2 }]
  | ps => ps.map (fun p =>
      { part_number := m.part_number, qty := m.qty,
        description := some p.description, price := some p.price,
        no_record := false, available_qty := p.free_stock,
        allocated_qty := (calculate_allocation true m.qty p.free_stock).1,
        status := (calculate_allocation true m.qty p.free_stock).2 })

/-- Part-number cleaning applied to one bulk row (logic.py:329). -/
def cleanRow (r : BulkRow) : BulkRow :=
  { part_number := cleanPart r.part_number, qty := r.qty }

/-- `df.groupby('part_number', as_index=False)['qty'].sum()`
(logic.py:331-333): one row per distinct part number carrying the summed
quantity. -/
def merge_bulk_rows (rows : List BulkRow) : List BulkRow :=
  (dedupFirst (rows.map (fun r => r.part_number))).map (fun p =>
    { part_number := p,
      qty := ((rows.filter (fun r => r.part_number = p)).map (fun r => r.qty)).sum })

/-- `process_bulk_enquiry` (logic.py:301-376) from the point where the
frame has columns `part_number, qty`: clean part numbers, merge duplicate
parts by summing quantities, read the active stock of the pool, adjust
prices when the percentage is non-zero, left merge, and allocate once per
merged row. -/
def process_bulk_enquiry (db : DB) (rows : List BulkRow) (stype : String)
    (adjustment : ℚ) : List BulkResult :=
  let merged := merge_bulk_rows (rows.map cleanRow)
  let stock := db.parts_stock.filter (fun p => p.stock_type = stype ∧ p.is_active)
  let stockAdj :=
    if adjustment = 0 then stock
    else stock.map (fun p => { p with price := roundCents (p.price * (1 + adjustment / 100)) })
  merged.flatMap (bulk_match_rows stockAdj)

-- ---------- HELPER NOTIONS FOR THE PROOFS ----------

/-- Net quantity that the items `items` (with the pool `stype`) deduct
from / credit to the stock record `r`: the sum of the positive allocated
quantities of the items matching `r`'s part and pool. -/
def creditOf (stype : String) (items : List OrderItemRow) (pn rst : String) : Int :=
  ((items.filter (fun it =>
      0 < it.qty ∧ pn = it.part_number ∧ rst = stype)).map
    (fun it => it.qty)).sum

def c3db : DB := ⟨[⟨"P", "d", 2, 2, "t", true⟩], [], [⟨1, "u", 10, "Pending", "t"⟩],
  [⟨1, "P", "d", 4, 5, 6, 2⟩], 2⟩

def c4db : DB := ⟨[⟨"P", "d", 0, 2, "t", true⟩], [], [⟨1, "u", 10, "Accepted", "t"⟩],
  [⟨1, "P", "d", 4, 5, 6, 2⟩], 2⟩

def c5db : DB := ⟨[⟨"A", "a", 10, 5, "t", true⟩], [], [], [], 1⟩

def c2db : DB := ⟨[⟨"A", "a", 6, 1, "t", true⟩], [⟨1, "u", "A", "a", 3, 1⟩], [], [], 1⟩

def c1db : DB := ⟨[], [⟨1, "u", "X", "x", 1, 0⟩], [], [], 1⟩

def c6db : DB := ⟨[⟨"A", "a", 6, 1, "t", true⟩], [], [], [], 1⟩

def c7db : DB := ⟨[⟨"P", "d", 6, 1, "t", true⟩], [], [], [], 1⟩

def c8db : DB := ⟨[⟨"P", "old", 7, 1, "t", false⟩], [], [], [], 1⟩

def c9db : DB := ⟨[⟨"A", "a", 10, 5, "t", true⟩], [], [], [], 1⟩

def c10db : DB := ⟨[], [⟨1, "u", "A", "a", 1, 1⟩, ⟨2, "u", "B", "b", 2, 1⟩,
  ⟨3, "v", "C", "c", 1, 1⟩], [], [], 1⟩

-- ---------- VERIFICATION ----------

theorem creditOf_nil (stype pn rst : String) : creditOf stype [] pn rst = 0 := rfl

theorem restoreLoop_spec (stype : String) :
    ∀ (items : List OrderItemRow) (db : DB),
      restoreLoop stype items db =
        { db with parts_stock := db.parts_stock.map (fun r =>
            { r with free_stock := r.free_stock + creditOf stype items r.part_number r.stock_type }) }
  | [], db => by
    simp only [restoreLoop, creditOf_nil, add_zero]
    cases db
    simp
  | it :: rest, db => by
    rw [restoreLoop, restoreLoop_spec stype rest]
    by_cases hq : 0 < it.qty
    · simp only [if_pos hq, restoreStock, List.map_map]
      have hfun : ∀ r : StockRecord,
          ((fun r => { r with free_stock := r.free_stock + creditOf stype rest r.part_number r.stock_type }) ∘
            (fun r => if r.part_number = it.part_number ∧ r.stock_type = stype then
              { r with free_stock := r.free_stock + it.qty } else r)) r =
          { r with free_stock := r.free_stock + creditOf stype (it :: rest) r.part_number r.stock_type } := by
        intro r
        by_cases hm : r.part_number = it.part_number ∧ r.stock_type = stype
        · simp only [Function.comp_apply, if_pos hm, creditOf, List.filter_cons,
            hq, hm, decide_True, true_and, and_self, if_true, List.map_cons,
            List.sum_cons]
          cases r
          simp [creditOf]
          ring
        · simp only [Function.comp_apply, if_neg hm, creditOf, List.filter_cons]
          have : ¬(0 < it.qty ∧ r.part_number = it.part_number ∧ r.stock_type = stype) := by
            intro h; exact hm h.2
          simp [this]
      rw [List.map_congr_left (fun r _ => hfun r)]
    · simp only [if_neg hq]
      have hfun : ∀ r : StockRecord,
          { r with free_stock := r.free_stock + creditOf stype rest r.part_number r.stock_type } =
          { r with free_stock := r.free_stock + creditOf stype (it :: rest) r.part_number r.stock_type } := by
        intro r
        have : ¬(0 < it.qty ∧ r.part_number = it.part_number ∧ r.stock_type = stype) := by
          intro h; exact hq h.1
        simp [creditOf, List.filter_cons, this]
      rw [List.map_congr_left (fun r _ => hfun r)]

theorem create_order_lines_spec (stype : String) (oid : Nat) :
    ∀ (items : List OrderInput) (db : DB) (tot : ℚ),
      ∃ new : List OrderItemRow,
        (create_order_lines stype oid items db tot).1 =
          { db with
            parts_stock := db.parts_stock.map (fun r =>
              { r with free_stock := r.free_stock - creditOf stype new r.part_number r.stock_type }),
            order_items := db.order_items ++ new }
        ∧ (∀ it ∈ new, it.order_id = oid)
        ∧ (create_order_lines stype oid items db tot).2 =
            tot + (new.map (fun it => (it.qty : ℚ) * it.price)).sum
  | [], db, tot => by
    refine ⟨[], ?_, ?_, ?_⟩
    · simp only [create_order_lines, creditOf_nil, sub_zero, List.append_nil]
      cases db
      simp
    · intro it h; cases h
    · simp [create_order_lines]
  | item :: rest, db, tot => by
    rw [create_order_lines]
    set current := (selectFreeStock db item.part_number stype).getD 0 with hcur
    set a := order_line_alloc item.qty current with ha
    set newIt : OrderItemRow :=
      { order_id := oid, part_number := item.part_number,
        description := item.description, qty := a,
        requested_qty := item.qty, available_qty := current,
        price := item.price } with hnewIt
    obtain ⟨new', h1, h2, h3⟩ :=
      create_order_lines_spec stype oid rest
        (appendItem (if 0 < a then deductStock db item.part_number stype a else db)
          oid item a current)
        (tot + (a : ℚ) * item.price)
    refine ⟨newIt :: new', ?_, ?_, ?_⟩
    · rw [h1]
      by_cases hq : 0 < a
      · simp only [if_pos hq, appendItem, deductStock, List.map_map]
        have hfun : ∀ r : StockRecord,
            ((fun r => { r with free_stock := r.free_stock - creditOf stype new' r.part_number r.stock_type }) ∘
              (fun r => if r.part_number = item.part_number ∧ r.stock_type = stype then
                { r with free_stock := r.free_stock - a } else r)) r =
            { r with free_stock := r.free_stock - creditOf stype (newIt :: new') r.part_number r.stock_type } := by
          intro r
          by_cases hm : r.part_number = item.part_number ∧ r.stock_type = stype
          · have hpred : (0 < newIt.qty ∧ r.part_number = newIt.part_number ∧
                r.stock_type = stype) := ⟨hq, hm.1, hm.2⟩
            simp only [Function.comp_apply, if_pos hm, creditOf, List.filter_cons,
              hpred, decide_True, if_true, List.map_cons, List.sum_cons]
            cases r
            simp [creditOf]
            ring
          · have hpred : ¬(0 < newIt.qty ∧ r.part_number = newIt.part_number ∧
                r.stock_type = stype) := by
              intro h; exact hm ⟨h.2.1, h.2.2⟩
            simp only [Function.comp_apply, if_neg hm, creditOf, List.filter_cons]
            simp [hpred]
        rw [List.map_congr_left (fun r _ => hfun r)]
        simp [List.append_assoc]
      · simp only [if_neg hq, appendItem]
        have hfun : ∀ r : StockRecord,
            { r with free_stock := r.free_stock - creditOf stype new' r.part_number r.stock_type } =
            { r with free_stock := r.free_stock - creditOf stype (newIt :: new') r.part_number r.stock_type } := by
          intro r
          have hpred : ¬(0 < newIt.qty ∧ r.part_number = newIt.part_number ∧
              r.stock_type = stype) := by
            intro h; exact hq h.1
          simp [creditOf, List.filter_cons, hpred]
        rw [List.map_congr_left (fun r _ => hfun r)]
        simp [List.append_assoc]
    · intro it hmem
      rcases List.mem_cons.mp hmem with h | h
      · rw [h]
      · exact h2 it h
    · rw [h3]
      simp [List.sum_cons]
      ring

theorem pred_of_head?_filter {α : Type} {p : α → Bool} {l : List α} {a : α}
    (h : (l.filter p).head? = some a) : p a = true ∧ a ∈ l := by
  cases hf : l.filter p with
  | nil => rw [hf] at h; cases h
  | cons b t =>
    rw [hf] at h
    have hb : b = a := by simpa using h
    have : b ∈ l.filter p := by rw [hf]; exact List.mem_cons_self b t
    rcases List.mem_filter.mp this with ⟨hmem, hp⟩
    subst hb
    exact ⟨hp, hmem⟩

theorem map_update_eq_self {α : Type} {l : List α} {q : α → Prop} [DecidablePred q]
    {g : α → α} (h : ∀ o ∈ l, ¬q o) :
    l.map (fun o => if q o then g o else o) = l := by
  have : l.map (fun o => if q o then g o else o) = l.map id :=
    List.map_congr_left (fun o ho => by simp [h o ho])
  rw [this, List.map_id]

theorem filter_eq_nil_fresh {α : Type} {l : List α} {q : α → Prop} [DecidablePred q]
    (h : ∀ o ∈ l, ¬q o) : l.filter (fun o => q o) = [] :=
  List.filter_eq_nil_iff.mpr (fun o ho => by simpa using h o ho)

theorem filter_eq_self_of {α : Type} {l : List α} {q : α → Prop} [DecidablePred q]
    (h : ∀ o ∈ l, q o) : l.filter (fun o => q o) = l :=
  List.filter_eq_self.mpr (fun o ho => by simpa using h o ho)

theorem create_order_spec (db : DB) (uid : String) (items : List OrderInput)
    (stype : String) (ho : ∀ o ∈ db.orders, ¬o.order_id = db.next_order_id) :
    ∃ (new : List OrderItemRow) (tot : ℚ),
      (create_order db uid items stype).2 = db.next_order_id
      ∧ (create_order db uid items stype).1 =
          { parts_stock := db.parts_stock.map (fun r =>
              { r with free_stock := r.free_stock - creditOf stype new r.part_number r.stock_type }),
            cart := db.cart.filter (fun c => ¬c.user_id = uid),
            orders := db.orders ++
              [{ order_id := db.next_order_id, user_id := uid, total_price := tot,
                 order_status := "Pending", stock_type := stype }],
            order_items := db.order_items ++ new,
            next_order_id := db.next_order_id + 1 }
      ∧ (∀ it ∈ new, it.order_id = db.next_order_id)
      ∧ tot = (new.map (fun it => (it.qty : ℚ) * it.price)).sum := by
  obtain ⟨new, h1, h2, h3⟩ :=
    create_order_lines_spec stype db.next_order_id items
      (insertHeader db uid stype db.next_order_id) 0
  refine ⟨new, (new.map (fun it => (it.qty : ℚ) * it.price)).sum, rfl, ?_, h2, rfl⟩
  show clearCartOf uid (setTotal _ db.next_order_id _) = _
  rw [h1, h3]
  simp only [insertHeader, setTotal, clearCartOf, zero_add, List.map_append]
  rw [map_update_eq_self ho]
  simp

theorem restore_stock_only (db : DB) (oid : Nat) :
    (restore_stock_from_order db oid).cart = db.cart
    ∧ (restore_stock_from_order db oid).orders = db.orders
    ∧ (restore_stock_from_order db oid).order_items = db.order_items
    ∧ (restore_stock_from_order db oid).next_order_id = db.next_order_id := by
  unfold restore_stock_from_order
  split
  · exact ⟨rfl, rfl, rfl, rfl⟩
  · rw [restoreLoop_spec]
    exact ⟨rfl, rfl, rfl, rfl⟩

theorem update_order_status_rejected (db : DB) (oid : Nat) (o : OrderRow)
    (hfind : (db.orders.filter (fun x => x.order_id = oid)).head? = some o)
    (hst : ¬o.order_status = "Rejected") :
    (update_order_status db oid "Rejected").1 =
      { restore_stock_from_order db oid with
        orders := db.orders.map (fun x =>
          if x.order_id = oid then { x with order_status := "Rejected" } else x) } := by
  simp only [update_order_status, hfind]
  rw [if_pos ⟨hst, trivial⟩, (restore_stock_only db oid).2.1]

theorem head?_filter_map_status {l : List OrderRow} {oid : Nat} {s : String} :
    ((l.map (fun x => if x.order_id = oid then { x with order_status := s } else x)).filter
        (fun x => x.order_id = oid)).head? =
      ((l.filter (fun x => x.order_id = oid)).head?).map
        (fun x => if x.order_id = oid then { x with order_status := s } else x) := by
  induction l with
  | nil => rfl
  | cons y t ih =>
    by_cases hy : y.order_id = oid
    · simp [List.filter_cons, hy]
    · simp [List.filter_cons, hy, ih]

theorem restore_stock_from_order_spec (db : DB) (oid : Nat) (o : OrderRow)
    (hfind : (db.orders.filter (fun x => x.order_id = oid)).head? = some o) :
    restore_stock_from_order db oid =
      { db with parts_stock := db.parts_stock.map (fun r =>
          { r with free_stock := r.free_stock +
              creditOf o.stock_type (db.order_items.filter (fun it => it.order_id = oid)) r.part_number r.stock_type }) } := by
  unfold restore_stock_from_order
  rw [hfind]
  show restoreLoop o.stock_type (db.order_items.filter fun it => it.order_id = oid) db = _
  rw [restoreLoop_spec]

theorem update_no_restore_when_rejected (db : DB) (oid : Nat) (o : OrderRow)
    (hfind : (db.orders.filter (fun x => x.order_id = oid)).head? = some o)
    (hst : o.order_status = "Rejected") :
    ((update_order_status db oid "Rejected").1).parts_stock = db.parts_stock := by
  simp only [update_order_status, hfind]
  rw [if_neg (by simp [hst])]

/-- C3: for an order whose current status is not `Rejected`, rejecting it
credits each line item's positive allocated quantity back to the stock
pool once, and rejecting it again leaves every stock quantity unchanged
(the restoration is guarded on the current status). -/
theorem C3_reject_idempotent (db : DB) (oid : Nat) (o : OrderRow)
    (hfind : (db.orders.filter (fun x => x.order_id = oid)).head? = some o)
    (hst : ¬o.order_status = "Rejected") :
    ((update_order_status db oid "Rejected").1).parts_stock =
      db.parts_stock.map (fun r =>
        { r with free_stock := r.free_stock +
            creditOf o.stock_type (db.order_items.filter (fun it => it.order_id = oid)) r.part_number r.stock_type })
    ∧ ((update_order_status ((update_order_status db oid "Rejected").1) oid
          "Rejected").1).parts_stock =
        ((update_order_status db oid "Rejected").1).parts_stock := by
  have hoid : o.order_id = oid := by
    have := (pred_of_head?_filter hfind).1
    simpa using this
  have hrest := restore_stock_from_order_spec db oid o hfind
  have h1 := update_order_status_rejected db oid o hfind hst
  constructor
  · rw [h1, hrest]
  · have hfind2 : (((update_order_status db oid "Rejected").1).orders.filter
        (fun x => x.order_id = oid)).head? =
        some { o with order_status := "Rejected" } := by
      rw [h1]
      show ((db.orders.map (fun x =>
          if x.order_id = oid then { x with order_status := "Rejected" } else x)).filter
          (fun x => x.order_id = oid)).head? = _
      rw [head?_filter_map_status, hfind]
      simp [hoid]
    exact update_no_restore_when_rejected _ oid _ hfind2 rfl

theorem C3_witness :
    ((update_order_status c3db 1 "Rejected").1).parts_stock = [⟨"P", "d", 6, 2, "t", true⟩]
    ∧ ((update_order_status ((update_order_status c3db 1 "Rejected").1) 1
          "Rejected").1).parts_stock
        = ((update_order_status c3db 1 "Rejected").1).parts_stock := by
  have h := C3_reject_idempotent c3db 1 ⟨1, "u", 10, "Pending", "t"⟩ (by decide) (by decide)
  refine ⟨?_, h.2⟩
  rw [h.1]
  decide

/-- C4: `delete_order` restores allocated stock regardless of current
status, then deletes the line items, then the header; deleting an
already-rejected order therefore credits the stock twice. -/
theorem C4_delete_restores_unconditionally (db : DB) (oid : Nat) (o : OrderRow)
    (hfind : (db.orders.filter (fun x => x.order_id = oid)).head? = some o) :
    ((delete_order db oid).1).parts_stock =
      db.parts_stock.map (fun r =>
        { r with free_stock := r.free_stock +
            creditOf o.stock_type (db.order_items.filter (fun it => it.order_id = oid)) r.part_number r.stock_type })
    ∧ ((delete_order db oid).1).order_items =
        db.order_items.filter (fun it => ¬it.order_id = oid)
    ∧ ((delete_order db oid).1).orders = db.orders.filter (fun x => ¬x.order_id = oid)
    ∧ (¬o.order_status = "Rejected" →
        ((delete_order ((update_order_status db oid "Rejected").1) oid).1).parts_stock =
          db.parts_stock.map (fun r =>
            { r with free_stock :=
                r.free_stock + 2 * creditOf o.stock_type (db.order_items.filter (fun it => it.order_id = oid)) r.part_number r.stock_type })) := by
  have hoid : o.order_id = oid := by
    have := (pred_of_head?_filter hfind).1
    simpa using this
  have hrest := restore_stock_from_order_spec db oid o hfind
  refine ⟨?_, ?_, ?_, ?_⟩
  · show (restore_stock_from_order db oid).parts_stock = _
    rw [hrest]
  · show (restore_stock_from_order db oid).order_items.filter _ = _
    rw [(restore_stock_only db oid).2.2.1]
  · show ((restore_stock_from_order db oid).orders.filter _) = _
    rw [(restore_stock_only db oid).2.1]
  · intro hst
    have h1 := update_order_status_rejected db oid o hfind hst
    have hfind1 : (((update_order_status db oid "Rejected").1).orders.filter
        (fun x => x.order_id = oid)).head? =
        some { o with order_status := "Rejected" } := by
      rw [h1]
      show ((db.orders.map (fun x =>
          if x.order_id = oid then { x with order_status := "Rejected" } else x)).filter
          (fun x => x.order_id = oid)).head? = _
      rw [head?_filter_map_status, hfind]
      simp [hoid]
    have h2 := restore_stock_from_order_spec ((update_order_status db oid "Rejected").1) oid
      { o with order_status := "Rejected" } hfind1
    show (restore_stock_from_order ((update_order_status db oid "Rejected").1) oid).parts_stock = _
    rw [h2]
    show ((update_order_status db oid "Rejected").1).parts_stock.map _ = _
    have hps : ((update_order_status db oid "Rejected").1).parts_stock =
        db.parts_stock.map (fun r =>
          { r with free_stock := r.free_stock +
              creditOf o.stock_type (db.order_items.filter (fun it => it.order_id = oid)) r.part_number r.stock_type }) := by
      rw [h1, hrest]
    have hitems : ((update_order_status db oid "Rejected").1).order_items = db.order_items := by
      rw [h1, (restore_stock_only db oid).2.2.1]
    rw [hps, hitems, List.map_map]
    refine List.map_congr_left (fun r _ => ?_)
    cases r
    simp
    ring

theorem C4_witness :
    ((delete_order c4db 1).1).parts_stock = [⟨"P", "d", 4, 2, "t", true⟩]
    ∧ ((delete_order c4db 1).1).order_items = []
    ∧ ((delete_order c4db 1).1).orders = []
    ∧ ((delete_order ((update_order_status c4db 1 "Rejected").1) 1).1).parts_stock
        = [⟨"P", "d", 8, 2, "t", true⟩] := by
  have h := C4_delete_restores_unconditionally c4db 1 ⟨1, "u", 10, "Accepted", "t"⟩ (by decide)
  refine ⟨?_, ?_, ?_, ?_⟩
  · rw [h.1]; decide
  · rw [h.2.1]; decide
  · rw [h.2.2.1]; decide
  · rw [h.2.2.2 (by decide)]; decide

/-- C5: an order created and then immediately rejected leaves every stock
record's free quantity exactly as it was before the order. -/
theorem C5_conservation (db : DB) (uid stype : String) (items : List OrderInput)
    (ho : ∀ o ∈ db.orders, ¬o.order_id = db.next_order_id)
    (hi : ∀ it ∈ db.order_items, ¬it.order_id = db.next_order_id) :
    ((update_order_status (create_order db uid items stype).1
        (create_order db uid items stype).2 "Rejected").1).parts_stock =
      db.parts_stock := by
  obtain ⟨new, tot, h0, h1, h2, h3⟩ := create_order_spec db uid items stype ho
  rw [h0, h1]
  set oid := db.next_order_id with hoid
  set hdr : OrderRow :=
    { order_id := oid, user_id := uid, total_price := tot,
      order_status := "Pending", stock_type := stype } with hhdr
  set db1 : DB :=
    { parts_stock := db.parts_stock.map (fun r =>
        { r with free_stock := r.free_stock - creditOf stype new r.part_number r.stock_type }),
      cart := db.cart.filter (fun c => ¬c.user_id = uid),
      orders := db.orders ++ [hdr],
      order_items := db.order_items ++ new,
      next_order_id := oid + 1 } with hdb1
  have hfind : (db1.orders.filter (fun x => x.order_id = oid)).head? = some hdr := by
    show ((db.orders ++ [hdr]).filter (fun x => x.order_id = oid)).head? = some hdr
    rw [List.filter_append, filter_eq_nil_fresh ho]
    simp [List.filter_cons]
  have hupd := update_order_status_rejected db1 oid hdr hfind (by simp [hhdr])
  rw [hupd]
  show (restore_stock_from_order db1 oid).parts_stock = db.parts_stock
  rw [restore_stock_from_order_spec db1 oid hdr hfind]
  show (db1.parts_stock.map _) = db.parts_stock
  have hitems : db1.order_items.filter (fun it => it.order_id = oid) = new := by
    show (db.order_items ++ new).filter (fun it => it.order_id = oid) = new
    rw [List.filter_append, filter_eq_nil_fresh hi, filter_eq_self_of h2]
    simp
  rw [hitems]
  show ((db.parts_stock.map _).map _) = db.parts_stock
  rw [List.map_map]
  have : ∀ r ∈ db.parts_stock,
      ((fun r => ({ r with free_stock :=
          r.free_stock + creditOf hdr.stock_type new r.part_number r.stock_type } : StockRecord)) ∘
        (fun r => { r with free_stock :=
          r.free_stock - creditOf stype new r.part_number r.stock_type })) r = id r := by
    intro r _
    cases r
    simp [hhdr]
  rw [List.map_congr_left this, List.map_id]

theorem C5_witness :
    ((update_order_status (create_order c5db "u" [⟨"A", "a", 15, 5⟩] "t").1
        (create_order c5db "u" [⟨"A", "a", 15, 5⟩] "t").2 "Rejected").1).parts_stock =
      c5db.parts_stock :=
  C5_conservation c5db "u" "t" [⟨"A", "a", 15, 5⟩] (by decide) (by decide)

theorem create_order_fb_lines_none (stype : String) (oid : Nat) :
    ∀ (items : List OrderInput) (db : DB) (n : Nat) (tot : ℚ),
      ∃ m : Nat,
        create_order_fb_lines none stype oid items db n tot =
          Except.ok ((create_order_lines stype oid items db tot).1, m,
            (create_order_lines stype oid items db tot).2)
  | [], db, n, tot => ⟨n, rfl⟩
  | item :: rest, db, n, tot => by
    simp only [create_order_fb_lines, create_order_lines, opCheck]
    by_cases ha : 0 < order_line_alloc item.qty
      ((selectFreeStock db item.part_number stype).getD 0)
    · simp only [if_pos ha]
      exact create_order_fb_lines_none stype oid rest _ _ _
    · simp only [if_neg ha]
      exact create_order_fb_lines_none stype oid rest _ _ _

/-- C2: `create_order` is atomic.  If any storage call inside it raises,
the call returns the failure with the error message and the store is
exactly as it was before the call — no order header, no line items, no
stock deduction, the cart untouched.  With no failure the run coincides
with the successful `create_order`. -/
theorem C2_atomic_rollback (failAt : Option Nat) (db : DB) (uid : String)
    (items : List OrderInput) (stype : String) :
    (∀ e, (create_order_fb failAt db uid items stype).2 = Except.error e →
        (create_order_fb failAt db uid items stype).1 = db)
    ∧ create_order_fb none db uid items stype =
        ((create_order db uid items stype).1,
          Except.ok (create_order db uid items stype).2) := by
  constructor
  · intro e
    simp only [create_order_fb]
    rcases h0 : opCheck failAt 0 with e0 | n1
    · simp [h0]
    · simp only [h0]
      rcases hl : create_order_fb_lines failAt stype db.next_order_id items
          (insertHeader db uid stype db.next_order_id) n1 0 with e1 | ⟨db2, n2, tot⟩
      · simp [hl]
      · simp only [hl]
        rcases h2 : opCheck failAt n2 with e2 | n3
        · simp [h2]
        · simp only [h2]
          rcases h3 : opCheck failAt n3 with e3 | n4
          · simp [h3]
          · simp only [h3]
            intro he
            cases he
  · obtain ⟨m, hm⟩ := create_order_fb_lines_none stype db.next_order_id items
      (insertHeader db uid stype db.next_order_id) 1 0
    simp [create_order_fb, create_order, opCheck, hm]

theorem C2_witness :
    (create_order_fb (some 2) c2db "u" [⟨"A", "a", 3, 1⟩] "t").1 = c2db
    ∧ (create_order_fb (some 2) c2db "u" [⟨"A", "a", 3, 1⟩] "t").2 =
        Except.error "storage unavailable" := by
  have h := C2_atomic_rollback (some 2) c2db "u" [⟨"A", "a", 3, 1⟩] "t"
  exact ⟨h.1 "storage unavailable" (by rfl), by rfl⟩

/-- C1 (amended): for non-negative requested and available quantities the
allocated quantity is `min requested available` at all three sites (bulk
allocation, cart view, order creation), and the labels follow the ordered
boundary table for an existing record; a missing record yields
`(0, "Invalid Part")` in the bulk path, while the cart view treats a
missing record as availability 0 and labels it `"Out of Stock"`. -/
theorem C1_allocation_sites (req avail : Int) (hr : 0 ≤ req) (ha : 0 ≤ avail) :
    (calculate_allocation true req avail).1 = min req avail
    ∧ (req ≤ avail → (calculate_allocation true req avail).2 = "Fully Allocated")
    ∧ (0 < avail → avail < req →
        (calculate_allocation true req avail).2 = "Partial Fulfillment")
    ∧ (avail = 0 → 0 < req → (calculate_allocation true req avail).2 = "Out of Stock")
    ∧ calculate_allocation false req avail = (0, "Invalid Part")
    ∧ cart_allocate req (some avail) = calculate_allocation true req avail
    ∧ (0 < req → cart_allocate req none = (0, "Out of Stock"))
    ∧ order_line_alloc req avail = (calculate_allocation true req avail).1 := by
  refine ⟨?_, ?_, ?_, ?_, ?_, ?_, ?_, ?_⟩
  · simp only [calculate_allocation]
    split
    · simp at *
    · split
      · rename_i h1 h2
        simp only [ge_iff_le] at h2
        omega
      · split
        · rename_i h1 h2 h3
          simp only [ge_iff_le, not_le] at h2
          omega
        · rename_i h1 h2 h3
          simp only [ge_iff_le, not_le, gt_iff_lt, not_lt] at h2 h3
          omega
  · intro h
    simp [calculate_allocation, ge_iff_le, h]
  · intro h1 h2
    have hnge : ¬avail ≥ req := by omega
    simp [calculate_allocation, hnge, h1]
  · intro h1 h2
    subst h1
    have hnge : ¬(0 : Int) ≥ req := by omega
    simp [calculate_allocation, hnge]
  · simp [calculate_allocation]
  · simp [calculate_allocation, cart_allocate]
  · intro h
    have hnge : ¬(0 : Int) ≥ req := by omega
    simp [cart_allocate, hnge]
  · simp only [calculate_allocation, order_line_alloc]
    split
    · simp at *
    · split
      · rename_i h1 h2
        simp only [ge_iff_le] at h2
        omega
      · split
        · rename_i h1 h2 h3
          simp only [ge_iff_le, not_le] at h2
          omega
        · rename_i h1 h2 h3
          simp only [ge_iff_le, not_le, gt_iff_lt, not_lt] at h2 h3
          omega

theorem C1_allocation_sites_witness :
    (calculate_allocation true 3 2).1 = min 3 2
    ∧ (calculate_allocation true 3 2).2 = "Partial Fulfillment" := by
  have h := C1_allocation_sites 3 2 (by decide) (by decide)
  exact ⟨h.1, h.2.2.1 (by decide) (by decide)⟩

theorem C1_cart_missing_cex :
    cart_available c1db "X" = none
    ∧ (get_user_cart c1db "u").map (fun r => (r.allocated_qty, r.status, r.no_record)) =
        [(0, "Out of Stock", false)]
    ∧ ¬("Out of Stock" = "Invalid Part") := by
  refine ⟨by decide, by decide, by decide⟩

theorem mem_dedupFirstAux : ∀ (l seen : List String) (a : String),
    a ∈ dedupFirstAux seen l ↔ (a ∈ l ∧ a ∉ seen)
  | [], seen, a => by simp [dedupFirstAux]
  | x :: xs, seen, a => by
    by_cases hx : x ∈ seen
    · rw [dedupFirstAux, if_pos hx, mem_dedupFirstAux xs seen a]
      constructor
      · rintro ⟨h1, h2⟩
        exact ⟨List.mem_cons_of_mem x h1, h2⟩
      · rintro ⟨h1, h2⟩
        rcases List.mem_cons.mp h1 with h | h
        · exact absurd (h ▸ hx) h2
        · exact ⟨h, h2⟩
    · rw [dedupFirstAux, if_neg hx]
      simp only [List.mem_cons, mem_dedupFirstAux xs (x :: seen) a]
      by_cases hax : a = x
      · subst hax
        simp [hx]
      · simp [hax]

theorem nodup_dedupFirstAux : ∀ (l seen : List String), (dedupFirstAux seen l).Nodup
  | [], _ => by simp [dedupFirstAux]
  | x :: xs, seen => by
    by_cases hx : x ∈ seen
    · rw [dedupFirstAux, if_pos hx]
      exact nodup_dedupFirstAux xs seen
    · rw [dedupFirstAux, if_neg hx]
      refine List.nodup_cons.mpr ⟨?_, nodup_dedupFirstAux xs (x :: seen)⟩
      intro hmem
      exact ((mem_dedupFirstAux xs (x :: seen) x).mp hmem).2 (List.mem_cons_self x seen)

theorem filter_part_of_pairwise {l : List StockRecord}
    (h : l.Pairwise (fun a b => ¬a.part_number = b.part_number)) (p : String) :
    l.filter (fun r => r.part_number = p) = [] ∨
      ∃ r, l.filter (fun r => r.part_number = p) = [r] := by
  induction l with
  | nil => exact Or.inl rfl
  | cons x t ih =>
    rcases List.pairwise_cons.mp h with ⟨hx, ht⟩
    by_cases hxp : x.part_number = p
    · right
      refine ⟨x, ?_⟩
      rw [List.filter_cons, if_pos (by simp [hxp])]
      have ht0 : t.filter (fun r => r.part_number = p) = [] := by
        refine List.filter_eq_nil_iff.mpr (fun r hr => ?_)
        simp only [decide_eq_true_eq]
        intro hrp
        exact hx r hr (hxp.trans hrp.symm)
      rw [ht0]
    · rcases ih ht with h0 | ⟨r, hr⟩
      · exact Or.inl (by rw [List.filter_cons, if_neg (by simp [hxp]), h0])
      · exact Or.inr ⟨r, by rw [List.filter_cons, if_neg (by simp [hxp]), hr]⟩

theorem bulk_match_rows_singleton (stockAdj : List StockRecord) (m : BulkRow)
    (h : stockAdj.Pairwise (fun a b => ¬a.part_number = b.part_number)) :
    ∃ res : BulkResult, bulk_match_rows stockAdj m = [res]
      ∧ res.part_number = m.part_number
      ∧ res.qty = m.qty
      ∧ (res.allocated_qty, res.status) =
          calculate_allocation (!res.no_record) res.qty res.available_qty := by
  rcases filter_part_of_pairwise h m.part_number with h0 | ⟨r, hr⟩
  · refine ⟨{ part_number := m.part_number, qty := m.qty, description := none,
              price := none, no_record := true, available_qty := 0,
              allocated_qty := (calculate_allocation false m.qty 0).1,
              status := (calculate_allocation false m.qty 0).2 }, ?_, rfl, rfl, rfl⟩
    unfold bulk_match_rows
    rw [h0]
  · refine ⟨{ part_number := m.part_number, qty := m.qty,
              description := some r.description, price := some r.price,
              no_record := false, available_qty := r.free_stock,
              allocated_qty := (calculate_allocation true m.qty r.free_stock).1,
              status := (calculate_allocation true m.qty r.free_stock).2 }, ?_, rfl, rfl, rfl⟩
    unfold bulk_match_rows
    rw [hr]
    rfl

theorem bulk_flatMap_spec (stockAdj : List StockRecord)
    (h : stockAdj.Pairwise (fun a b => ¬a.part_number = b.part_number)) :
    ∀ ms : List BulkRow,
      ((ms.flatMap (bulk_match_rows stockAdj)).map (fun r => r.part_number) =
        ms.map (fun m => m.part_number))
      ∧ (∀ res ∈ ms.flatMap (bulk_match_rows stockAdj),
          ∃ m ∈ ms, res.part_number = m.part_number ∧ res.qty = m.qty
            ∧ (res.allocated_qty, res.status) =
                calculate_allocation (!res.no_record) res.qty res.available_qty)
  | [] => by simp
  | m :: ms => by
    obtain ⟨res, hres, hpn, hqty, halloc⟩ := bulk_match_rows_singleton stockAdj m h
    obtain ⟨ih1, ih2⟩ := bulk_flatMap_spec stockAdj h ms
    constructor
    · simp [List.flatMap_cons, hres, ih1, hpn]
    · intro r hrm
      rw [List.flatMap_cons, List.mem_append, hres] at hrm
      rcases hrm with hl | hrr
      · have : r = res := by simpa using hl
        subst this
        exact ⟨m, List.mem_cons_self m ms, hpn, hqty, halloc⟩
      · obtain ⟨m', hm', h1, h2, h3⟩ := ih2 r hrr
        exact ⟨m', List.mem_cons_of_mem m hm', h1, h2, h3⟩

theorem cleaned_filter_qty (rows : List BulkRow) (P : String) :
    (((rows.map cleanRow).filter (fun r => r.part_number = P)).map (fun r => r.qty)) =
      ((rows.filter (fun r => cleanPart r.part_number = P)).map (fun r => r.qty)) := by
  induction rows with
  | nil => rfl
  | cons x t ih =>
    by_cases hx : cleanPart x.part_number = P
    · simp [List.filter_cons, cleanRow, hx, ih]
    · simp [List.filter_cons, cleanRow, hx, ih]

/-- C6: a bulk submission first merges rows that share a (cleaned) part
number into one row carrying the sum of the requested quantities, and
allocation then runs once per distinct part against a single availability
value. -/
theorem C6_bulk_merge (db : DB) (rows : List BulkRow) (stype : String) (adjustment : ℚ)
    (huniq : (db.parts_stock.filter (fun p => p.stock_type = stype ∧ p.is_active)).Pairwise
      (fun a b => ¬a.part_number = b.part_number)) :
    ((process_bulk_enquiry db rows stype adjustment).map (fun r => r.part_number)).Nodup
    ∧ (∀ p, p ∈ (process_bulk_enquiry db rows stype adjustment).map
          (fun r => r.part_number) ↔
        p ∈ rows.map (fun r => cleanPart r.part_number))
    ∧ (∀ res ∈ process_bulk_enquiry db rows stype adjustment,
        res.qty = ((rows.filter (fun r => cleanPart r.part_number = res.part_number)).map
          (fun r => r.qty)).sum)
    ∧ (∀ res ∈ process_bulk_enquiry db rows stype adjustment,
        (res.allocated_qty, res.status) =
          calculate_allocation (!res.no_record) res.qty res.available_qty) := by
  have hpair :
      (if adjustment = 0 then
          db.parts_stock.filter (fun p => p.stock_type = stype ∧ p.is_active)
        else (db.parts_stock.filter (fun p => p.stock_type = stype ∧ p.is_active)).map
          (fun p => { p with
            price := roundCents (p.price * (1 + adjustment / 100)) })).Pairwise
        (fun a b => ¬a.part_number = b.part_number) := by
    split
    · exact huniq
    · exact List.pairwise_map.mpr (huniq.imp (fun h => h))
  have hout : process_bulk_enquiry db rows stype adjustment =
      (merge_bulk_rows (rows.map cleanRow)).flatMap
        (bulk_match_rows
          (if adjustment = 0 then
              db.parts_stock.filter (fun p => p.stock_type = stype ∧ p.is_active)
            else (db.parts_stock.filter
                (fun p => p.stock_type = stype ∧ p.is_active)).map
              (fun p => { p with
                price := roundCents (p.price * (1 + adjustment / 100)) }))) := rfl
  obtain ⟨hA, hB⟩ := bulk_flatMap_spec _ hpair (merge_bulk_rows (rows.map cleanRow))
  have hmapparts : (process_bulk_enquiry db rows stype adjustment).map
      (fun r => r.part_number) =
      dedupFirst ((rows.map cleanRow).map (fun r => r.part_number)) := by
    rw [hout, hA]
    show (List.map _ _).map _ = _
    rw [List.map_map]
    exact List.map_id _
  refine ⟨?_, ?_, ?_, ?_⟩
  · rw [hmapparts]
    exact nodup_dedupFirstAux _ []
  · intro p
    rw [hmapparts, dedupFirst, mem_dedupFirstAux, List.map_map]
    simp [cleanRow]
  · intro res hres
    rw [hout] at hres
    obtain ⟨m, hm, h1, h2, h3⟩ := hB res hres
    obtain ⟨p, hp, hmp⟩ := List.mem_map.mp hm
    rw [h2, ← hmp]
    have hpn : res.part_number = p := by rw [h1, ← hmp]
    rw [hpn, ← cleaned_filter_qty rows p]
  · intro res hres
    rw [hout] at hres
    obtain ⟨m, hm, h1, h2, h3⟩ := hB res hres
    exact h3

theorem C6_witness :
    ((process_bulk_enquiry c6db [⟨"A", 3⟩, ⟨"A", 5⟩] "t" 0).map
        (fun r => (r.part_number, r.qty, r.allocated_qty, r.status))) =
      [("A", 8, 6, "Partial Fulfillment")]
    ∧ ((process_bulk_enquiry c6db [⟨"A", 3⟩, ⟨"A", 5⟩] "t" 0).map
        (fun r => r.part_number)).Nodup :=
  ⟨by decide, (C6_bulk_merge c6db [⟨"A", 3⟩, ⟨"A", 5⟩] "t" 0 (by decide)).1⟩

theorem filter_deduct_list (l : List StockRecord) (pn stype : String) (q : Int) :
    (l.map (fun r => if r.part_number = pn ∧ r.stock_type = stype then
        { r with free_stock := r.free_stock - q } else r)).filter
        (fun r => r.part_number = pn ∧ r.stock_type = stype) =
      (l.filter (fun r => r.part_number = pn ∧ r.stock_type = stype)).map
        (fun r => { r with free_stock := r.free_stock - q }) := by
  induction l with
  | nil => rfl
  | cons x t ih =>
    by_cases hx : x.part_number = pn ∧ x.stock_type = stype
    · simp only [List.map_cons, List.filter_cons, if_pos hx]
      simp [hx]
      simpa using ih
    · simp only [List.map_cons, List.filter_cons, if_neg hx]
      simp [hx]
      simpa using ih

/-- C7: within one `create_order` call, the lines are processed in
submitted order and each line's deduction lands before the next line's
availability read: with a single stock record for part `p`, the second of
two lines for `p` observes the stock already reduced by the first line's
allocation, and is capped by that reduced value. -/
theorem C7_sequential_deduction (db : DB) (uid stype p d1 d2 : String)
    (q1 q2 : Int) (pr1 pr2 : ℚ) (r0 : StockRecord)
    (hrec : db.parts_stock.filter (fun r => r.part_number = p ∧ r.stock_type = stype) =
      [r0])
    (hq1 : 0 < q1) (hfs : 0 < r0.free_stock) :
    ∃ it1 it2 : OrderItemRow,
      (create_order db uid [⟨p, d1, q1, pr1⟩, ⟨p, d2, q2, pr2⟩] stype).1.order_items =
        db.order_items ++ [it1, it2]
      ∧ it1.available_qty = r0.free_stock
      ∧ it1.qty = min q1 r0.free_stock
      ∧ it2.available_qty = r0.free_stock - min q1 r0.free_stock
      ∧ it2.qty = min q2 (r0.free_stock - min q1 r0.free_stock) := by
  have hsel1 : selectFreeStock (insertHeader db uid stype db.next_order_id) p stype =
      some r0.free_stock := by
    show ((db.parts_stock.filter
        (fun r => r.part_number = p ∧ r.stock_type = stype)).head?).map
        (fun r => r.free_stock) = some r0.free_stock
    rw [hrec]
    rfl
  have ha1 : 0 < order_line_alloc q1 r0.free_stock := lt_min hq1 hfs
  have hsel2 : ∀ it : OrderItemRow,
      selectFreeStock
        { (deductStock (insertHeader db uid stype db.next_order_id) p stype
            (order_line_alloc q1 r0.free_stock)) with
          order_items := (deductStock (insertHeader db uid stype db.next_order_id) p stype
            (order_line_alloc q1 r0.free_stock)).order_items ++ [it] } p stype =
      some (r0.free_stock - order_line_alloc q1 r0.free_stock) := by
    intro it
    show (((db.parts_stock.map (fun r =>
        if r.part_number = p ∧ r.stock_type = stype then
          { r with free_stock := r.free_stock - order_line_alloc q1 r0.free_stock }
        else r)).filter
        (fun r => r.part_number = p ∧ r.stock_type = stype)).head?).map
        (fun r => r.free_stock) = _
    rw [filter_deduct_list, hrec]
    rfl
  refine ⟨⟨db.next_order_id, p, d1, order_line_alloc q1 r0.free_stock, q1,
      r0.free_stock, pr1⟩,
    ⟨db.next_order_id, p, d2,
      order_line_alloc q2 (r0.free_stock - order_line_alloc q1 r0.free_stock), q2,
      r0.free_stock - order_line_alloc q1 r0.free_stock, pr2⟩, ?_, rfl, rfl, rfl, rfl⟩
  show (create_order_lines stype db.next_order_id [⟨p, d1, q1, pr1⟩, ⟨p, d2, q2, pr2⟩]
      (insertHeader db uid stype db.next_order_id) 0).1.order_items = _
  simp only [create_order_lines, hsel1, Option.getD_some, if_pos ha1, appendItem]
  simp only [hsel2, Option.getD_some]
  by_cases ha2 : 0 < order_line_alloc q2 (r0.free_stock - order_line_alloc q1 r0.free_stock)
  · simp only [if_pos ha2, deductStock]
    show (insertHeader db uid stype db.next_order_id).order_items ++ _ ++ _ = _
    simp [insertHeader]
  · simp only [if_neg ha2]
    show (insertHeader db uid stype db.next_order_id).order_items ++ _ ++ _ = _
    simp [insertHeader]

theorem C7_witness :
    ∃ it1 it2 : OrderItemRow,
      (create_order c7db "u" [⟨"P", "x", 3, 1⟩, ⟨"P", "y", 5, 1⟩] "t").1.order_items =
        c7db.order_items ++ [it1, it2]
      ∧ it1.available_qty = 6 ∧ it1.qty = 3
      ∧ it2.available_qty = 3 ∧ it2.qty = 3 := by
  obtain ⟨it1, it2, h1, h2, h3, h4, h5⟩ :=
    C7_sequential_deduction c7db "u" "t" "P" "x" "y" 3 5 1 1 ⟨"P", "d", 6, 1, "t", true⟩
      (by decide) (by decide) (by decide)
  refine ⟨it1, it2, h1, ?_, ?_, ?_, ?_⟩
  · rw [h2]
  · rw [h3]; decide
  · rw [h4]; decide
  · rw [h5]; decide

/-- C8 (amended): the direct lookup `get_part_by_number` only ever returns
an active matching record, but the availability read inside `create_order`
has no active-flag filter: it succeeds (returns a quantity) whenever any
record for the pair exists, active or soft-deleted. -/
theorem C8_active_reads (db : DB) (pn stype : String) :
    (∀ r, get_part_by_number db pn stype = some r →
        r.is_active = true ∧ r.part_number = pn ∧ r.stock_type = stype)
    ∧ (∀ r ∈ db.parts_stock, r.part_number = pn → r.stock_type = stype →
        ¬selectFreeStock db pn stype = none) := by
  constructor
  · intro r h
    have hp := (pred_of_head?_filter h).1
    simp only [decide_eq_true_eq] at hp
    exact ⟨hp.2.2, hp.1, hp.2.1⟩
  · intro r hmem hpn hst hnone
    have hmem2 : r ∈ db.parts_stock.filter
        (fun x => x.part_number = pn ∧ x.stock_type = stype) :=
      List.mem_filter.mpr ⟨hmem, by simp [hpn, hst]⟩
    unfold selectFreeStock at hnone
    cases hf : db.parts_stock.filter (fun x => x.part_number = pn ∧ x.stock_type = stype) with
    | nil => rw [hf] at hmem2; cases hmem2
    | cons a l => rw [hf] at hnone; cases hnone

theorem C8_inactive_read_cex :
    get_part_by_number c8db "P" "t" = none
    ∧ selectFreeStock c8db "P" "t" = some 7
    ∧ ((create_order c8db "u" [⟨"P", "old", 5, 1⟩] "t").1.order_items.map
        (fun it => (it.qty, it.available_qty))) = [(5, 7)]
    ∧ (∀ r ∈ c8db.parts_stock, r.is_active = false) := by decide

theorem C8_active_reads_witness : ¬selectFreeStock c8db "P" "t" = none :=
  (C8_active_reads c8db "P" "t").2 ⟨"P", "old", 7, 1, "t", false⟩ (by decide) rfl rfl

/-- C9: the order total written at creation equals the sum of
`allocatedQty × unitPrice` over the order's line items, and no status
change rewrites any order's total. -/
theorem C9_total_price (db : DB) (uid stype : String) (items : List OrderInput)
    (ho : ∀ o ∈ db.orders, ¬o.order_id = db.next_order_id)
    (hi : ∀ it ∈ db.order_items, ¬it.order_id = db.next_order_id) :
    ((((create_order db uid items stype).1).orders.filter
        (fun x => x.order_id = (create_order db uid items stype).2)).head?).map
      (fun x => x.total_price) =
      some (((((create_order db uid items stype).1).order_items.filter
          (fun it => it.order_id = (create_order db uid items stype).2)).map
        (fun it => (it.qty : ℚ) * it.price)).sum)
    ∧ ∀ (db2 : DB) (oid : Nat) (status : String),
        ((update_order_status db2 oid status).1).orders.map
            (fun x => (x.order_id, x.total_price)) =
          db2.orders.map (fun x => (x.order_id, x.total_price)) := by
  constructor
  · obtain ⟨new, tot, h0, h1, h2, h3⟩ := create_order_spec db uid items stype ho
    rw [h0, h1]
    set oid := db.next_order_id with hoid
    set hdr : OrderRow :=
      { order_id := oid, user_id := uid, total_price := tot,
        order_status := "Pending", stock_type := stype } with hhdr
    have hfind : ((db.orders ++ [hdr]).filter (fun x => x.order_id = oid)).head? =
        some hdr := by
      rw [List.filter_append, filter_eq_nil_fresh ho]
      simp [List.filter_cons]
    have hitems : ((db.order_items ++ new).filter (fun it => it.order_id = oid)) = new := by
      rw [List.filter_append, filter_eq_nil_fresh hi, filter_eq_self_of h2]
      simp
    show (((db.orders ++ [hdr]).filter (fun x => x.order_id = oid)).head?).map
        (fun x => x.total_price) =
      some ((((db.order_items ++ new).filter (fun it => it.order_id = oid)).map
        (fun it => (it.qty : ℚ) * it.price)).sum)
    rw [hfind, hitems]
    simp [hhdr, h3]
  · intro db2 oid status
    have horders : ((update_order_status db2 oid status).1).orders =
        db2.orders.map (fun o =>
          if o.order_id = oid then { o with order_status := status } else o) := by
      cases hc : (db2.orders.filter (fun o => o.order_id = oid)).head? with
      | none => simp [update_order_status, hc]
      | some c =>
        by_cases hcond : ¬c.order_status = "Rejected" ∧ status = "Rejected"
        · simp [update_order_status, hc, hcond, (restore_stock_only db2 oid).2.1]
        · simp only [update_order_status, hc]
          rw [if_neg hcond]
    rw [horders, List.map_map]
    exact List.map_congr_left (fun o _ => by by_cases h : o.order_id = oid <;> simp [h])

theorem C9_witness :
    ((((create_order c9db "u" [⟨"A", "a", 15, 5⟩] "t").1).orders.filter
        (fun x => x.order_id = (create_order c9db "u" [⟨"A", "a", 15, 5⟩] "t").2)).head?).map
      (fun x => x.total_price) =
      some (((((create_order c9db "u" [⟨"A", "a", 15, 5⟩] "t").1).order_items.filter
          (fun it => it.order_id = (create_order c9db "u" [⟨"A", "a", 15, 5⟩] "t").2)).map
        (fun it => (it.qty : ℚ) * it.price)).sum) :=
  (C9_total_price c9db "u" "t" [⟨"A", "a", 15, 5⟩] (by decide) (by decide)).1

/-- C10 (amended): a successful `create_order` deletes every cart entry of
the submitting user — submitted or not — and no entry of any other user;
the clearing is the final step of the unit of work. -/
theorem C10_cart_cleared (db : DB) (uid : String) (items : List OrderInput)
    (stype : String) :
    (create_order db uid items stype).1.cart =
      db.cart.filter (fun c => ¬c.user_id = uid) := by
  obtain ⟨new, h1, h2, h3⟩ := create_order_lines_spec stype db.next_order_id items
    (insertHeader db uid stype db.next_order_id) 0
  show ((create_order_lines stype db.next_order_id items
      (insertHeader db uid stype db.next_order_id) 0).1.cart).filter
      (fun c => ¬c.user_id = uid) = db.cart.filter (fun c => ¬c.user_id = uid)
  rw [h1]
  rfl

theorem C10_unsubmitted_cleared_cex :
    (⟨2, "u", "B", "b", 2, 1⟩ : CartRow) ∈ c10db.cart
    ∧ (∀ it ∈ ([⟨"A", "a", 1, 1⟩] : List OrderInput), ¬it.part_number = "B")
    ∧ ¬(⟨2, "u", "B", "b", 2, 1⟩ : CartRow) ∈
        (create_order c10db "u" [⟨"A", "a", 1, 1⟩] "t").1.cart
    ∧ (⟨3, "v", "C", "c", 1, 1⟩ : CartRow) ∈
        (create_order c10db "u" [⟨"A", "a", 1, 1⟩] "t").1.cart := by decide

